import Mathlib

/- Shallow embedding of src/Optimization/hiopNlpFormulation.hpp, the NLP
formulation layer of the HiOp interior-point solver.  The embedded code paths
never perform arithmetic on C `double` values (they only shuttle them between
buffers and callbacks), so doubles are carried by an opaque integer type.
Calls into user callbacks are made observable by returning, next to the C++
return value, the list of argument records the callback was invoked with. -/

/-- Opaque carrier for C `double` values (no arithmetic is performed on them
by the embedded code paths). -/
abbrev Double := Int

/-- Solver status enum handed to the solution callback, carried opaquely. -/
abbrev hiopSolveStatus := Int

/-- Result of running a C++ function with assertions enabled: either a normal
return value or an abort at a failed `assert`. -/
inductive Outcome (α : Type) where
  | ok (a : α)
  | assertFail (msg : String)
deriving DecidableEq, Repr

/-- Semantics of a C `assert(cond)` statement with assertions enabled:
continue with `k` when the condition holds, abort otherwise. -/
def cassert {α : Type} (b : Bool) (msg : String) (k : Outcome α) : Outcome α :=
  if b then k else Outcome.assertFail msg

/-- `hiopMatrixDense`: a dense matrix; `local_data()` exposes the raw rows. -/
structure hiopMatrixDense where
  local_data : List (List Double)
deriving DecidableEq, Repr

/-- `hiopMatrixMDS`: a mixed sparse-dense matrix, holding a sparse
coordinate-format block (row/col index arrays plus values) and a dense block. -/
structure hiopMatrixMDS where
  n_sp : Int
  n_de : Int
  sp_nnz : Int
  sp_irow : List Int
  sp_jcol : List Int
  sp_M : List Double
  de_local_data : List (List Double)
deriving DecidableEq, Repr

/-- `hiopMatrixSymBlockDiagMDS`: the symmetric block-diagonal mixed
sparse-dense matrix used for the Lagrangian Hessian. -/
structure hiopMatrixSymBlockDiagMDS where
  n_sp : Int
  n_de : Int
  sp_nnz : Int
  sp_irow : List Int
  sp_jcol : List Int
  sp_M : List Double
  de_local_data : List (List Double)
deriving DecidableEq, Repr

/-- The abstract `hiopMatrix` handle: a closed set of the concrete matrix
types appearing in this header.  `dynamic_cast` to a concrete type is the
corresponding partial projection. -/
inductive hiopMatrix where
  | dense (m : hiopMatrixDense)
  | mds (m : hiopMatrixMDS)
  | symBlockDiagMDS (m : hiopMatrixSymBlockDiagMDS)
deriving DecidableEq, Repr

/-- `dynamic_cast<hiopMatrixDense*>`: succeeds exactly on dense handles. -/
def dynamicCastDense : hiopMatrix → Option hiopMatrixDense
  | hiopMatrix.dense m => some m
  | _ => none

/-- `dynamic_cast<hiopMatrixMDS*>`: succeeds exactly on MDS handles. -/
def dynamicCastMDS : hiopMatrix → Option hiopMatrixMDS
  | hiopMatrix.mds m => some m
  | _ => none

/-- `dynamic_cast<hiopMatrixSymBlockDiagMDS*>`. -/
def dynamicCastSymBlockDiagMDS : hiopMatrix → Option hiopMatrixSymBlockDiagMDS
  | hiopMatrix.symBlockDiagMDS m => some m
  | _ => none

/-- The protected problem data of `hiopNlpFormulation` (dimensions, bound and
indicator vectors, equality right-hand side, constraint index mappings). -/
structure hiopNlpFormulation where
  n_vars : Int
  n_cons : Int
  n_cons_eq : Int
  n_cons_ineq : Int
  n_bnds_low : Int
  n_bnds_upp : Int
  n_ineq_low : Int
  n_ineq_upp : Int
  xl : List Double
  xu : List Double
  ixl : List Double
  ixu : List Double
  dl : List Double
  du : List Double
  idl : List Double
  idu : List Double
  c_rhs : List Double
  cons_eq_mapping : List Int
  cons_ineq_mapping : List Int
deriving DecidableEq, Repr

/-- Accessor `n()`. -/
def hiopNlpFormulation.n (s : hiopNlpFormulation) : Int := s.n_vars

/-- Accessor `m()`. -/
def hiopNlpFormulation.m (s : hiopNlpFormulation) : Int := s.n_cons

/-- Accessor `m_eq()`. -/
def hiopNlpFormulation.m_eq (s : hiopNlpFormulation) : Int := s.n_cons_eq

/-- Accessor `m_ineq()`. -/
def hiopNlpFormulation.m_ineq (s : hiopNlpFormulation) : Int := s.n_cons_ineq

/-- Accessor `n_low()`. -/
def hiopNlpFormulation.n_low (s : hiopNlpFormulation) : Int := s.n_bnds_low

/-- Accessor `n_upp()`. -/
def hiopNlpFormulation.n_upp (s : hiopNlpFormulation) : Int := s.n_bnds_upp

/-- Accessor `m_ineq_low()`. -/
def hiopNlpFormulation.m_ineq_low (s : hiopNlpFormulation) : Int := s.n_ineq_low

/-- Accessor `m_ineq_upp()`. -/
def hiopNlpFormulation.m_ineq_upp (s : hiopNlpFormulation) : Int := s.n_ineq_upp

/-- Accessor `n_complem()`, exactly as the source computes it:
`m_ineq_low()+m_ineq_upp()+n_low()+n_upp()`. -/
def hiopNlpFormulation.n_complem (s : hiopNlpFormulation) : Int :=
  s.m_ineq_low + s.m_ineq_upp + s.n_low + s.n_upp

/-- `hiopNlpDenseConstraints::eval_Hess_Lagr`: the body is
`assert(false && "this NLP formulation is only for Quasi-Newton"); return true;`,
so with assertions enabled every call aborts before the `return`. -/
def hiopNlpDenseConstraints.eval_Hess_Lagr (x : List Double) (new_x : Bool)
    (obj_factor : Double) (lambda : List Double) (new_lambda : Bool)
    (Hess_L : hiopMatrix) : Outcome Bool :=
  cassert false "this NLP formulation is only for Quasi-Newton" (Outcome.ok true)

/-- Argument record of one invocation of the user's combined sparse+dense
Jacobian callback `hiopInterfaceMDS::eval_Jac_cons`, fields in the order of
the call in the source. -/
structure JacConsArgs where
  n_vars : Int
  n_cons : Int
  num_cons : Int
  idx_cons : List Int
  x : List Double
  new_x : Bool
  nsparse : Int
  ndense : Int
  nnzJacS : Int
  iJacS : List Int
  jJacS : List Int
  MJacS : List Double
  JacD : List (List Double)
deriving DecidableEq, Repr

/-- Argument record of one invocation of the user's MDS Lagrangian-Hessian
callback `hiopInterfaceMDS::eval_Hess_Lagr`.  The sparse-dense coupling-block
buffers are passed as NULL (`none`). -/
structure HessLagrArgs where
  n_vars : Int
  n_cons : Int
  x : List Double
  new_x : Bool
  obj_factor : Double
  lambda : List Double
  new_lambda : Bool
  nsparse : Int
  ndense : Int
  nnzHSS : Int
  iHSS : List Int
  jHSS : List Int
  MHSS : List Double
  HDD : List (List Double)
  nnzHSD : Int
  iHSD : Option (List Int)
  jHSD : Option (List Int)
  MHSD : Option (List Double)
deriving DecidableEq, Repr

/-- The user's MDS problem interface.  The Jacobian callback returns its
boolean status; the Hessian callback returns its boolean status together with
the values it stores back through the by-reference nonzero-count parameters
`nnzHSS` and `nnzHSD` (sparse block and sparse-dense coupling block). -/
structure hiopInterfaceMDS where
  eval_Jac_cons : JacConsArgs → Bool
  eval_Hess_Lagr : HessLagrArgs → Bool × Int × Int

/-- The argument record `hiopNlpMDS::eval_Jac_c`/`eval_Jac_d` build for the
user callback: problem dimensions, the constraint count and index mapping of
the requested block, the point, and the raw buffers of the MDS matrix. -/
def mdsJacArgs (s : hiopNlpFormulation) (num_cons : Int) (idx_cons : List Int)
    (x : List Double) (new_x : Bool) (pJac : hiopMatrixMDS) : JacConsArgs :=
  { n_vars := s.n_vars, n_cons := s.n_cons,
    num_cons := num_cons, idx_cons := idx_cons,
    x := x, new_x := new_x,
    nsparse := pJac.n_sp, ndense := pJac.n_de,
    nnzJacS := pJac.sp_nnz, iJacS := pJac.sp_irow, jJacS := pJac.sp_jcol,
    MJacS := pJac.sp_M, JacD := pJac.de_local_data }

/-- `hiopNlpMDS::eval_Jac_c`: downcast the handle to `hiopMatrixMDS`
(`assert(pJac_c)` aborts on a failed downcast with assertions enabled), then
forward to the user's combined callback with the equality-constraint count and
`cons_eq_mapping`.  Returns the C++ result together with the list of callback
invocations made. -/
def hiopNlpMDS.eval_Jac_c (I : hiopInterfaceMDS) (s : hiopNlpFormulation)
    (x : List Double) (new_x : Bool) (Jac_c : hiopMatrix) :
    Outcome Bool × List JacConsArgs :=
  match dynamicCastMDS Jac_c with
  | none => (Outcome.assertFail "pJac_c", [])
  | some pJac_c =>
    let args := mdsJacArgs s s.n_cons_eq s.cons_eq_mapping x new_x pJac_c
    (Outcome.ok (I.eval_Jac_cons args), [args])

/-- `hiopNlpMDS::eval_Jac_d`: as `eval_Jac_c`, with the inequality-constraint
count and `cons_ineq_mapping`. -/
def hiopNlpMDS.eval_Jac_d (I : hiopInterfaceMDS) (s : hiopNlpFormulation)
    (x : List Double) (new_x : Bool) (Jac_d : hiopMatrix) :
    Outcome Bool × List JacConsArgs :=
  match dynamicCastMDS Jac_d with
  | none => (Outcome.assertFail "pJac_d", [])
  | some pJac_d =>
    let args := mdsJacArgs s s.n_cons_ineq s.cons_ineq_mapping x new_x pJac_d
    (Outcome.ok (I.eval_Jac_cons args), [args])

/-- The argument record `hiopNlpMDS::eval_Hess_Lagr` builds for the user
callback: `nnzHSS` is seeded with the matrix's sparse nonzero count, `nnzHSD`
with 0, and the coupling-block buffers are NULL. -/
def mdsHessArgs (s : hiopNlpFormulation) (x : List Double) (new_x : Bool)
    (obj_factor : Double) (lambda : List Double) (new_lambda : Bool)
    (pHessL : hiopMatrixSymBlockDiagMDS) : HessLagrArgs :=
  { n_vars := s.n_vars, n_cons := s.n_cons, x := x, new_x := new_x,
    obj_factor := obj_factor, lambda := lambda, new_lambda := new_lambda,
    nsparse := pHessL.n_sp, ndense := pHessL.n_de,
    nnzHSS := pHessL.sp_nnz, iHSS := pHessL.sp_irow, jHSS := pHessL.sp_jcol,
    MHSS := pHessL.sp_M, HDD := pHessL.de_local_data,
    nnzHSD := 0, iHSD := none, jHSD := none, MHSD := none }

/-- `hiopNlpMDS::eval_Hess_Lagr`: downcast to `hiopMatrixSymBlockDiagMDS`,
call the user callback, then `assert(nnzHSD==0)` and
`assert(nnzHSS==pHessL->sp_nnz())` on the counts the callback reported back,
finally return the callback's boolean result. -/
def hiopNlpMDS.eval_Hess_Lagr (I : hiopInterfaceMDS) (s : hiopNlpFormulation)
    (x : List Double) (new_x : Bool) (obj_factor : Double)
    (lambda : List Double) (new_lambda : Bool) (Hess_L : hiopMatrix) :
    Outcome Bool × List HessLagrArgs :=
  match dynamicCastSymBlockDiagMDS Hess_L with
  | none => (Outcome.assertFail "pHessL", [])
  | some pHessL =>
    let args := mdsHessArgs s x new_x obj_factor lambda new_lambda pHessL
    let r := I.eval_Hess_Lagr args
    let bret := r.1
    let nnzHSSout := r.2.1
    let nnzHSDout := r.2.2
    (cassert (nnzHSDout == 0) "nnzHSD==0"
      (cassert (nnzHSSout == pHessL.sp_nnz) "nnzHSS==pHessL->sp_nnz()"
        (Outcome.ok bret)), [args])

/-- Trace record of one forward to the raw dense Jacobian evaluation
`eval_Jac_c(double*, bool, double**)`, whose body lives outside this header. -/
structure RawDenseJacCall where
  x : List Double
  new_x : Bool
  data : List (List Double)
deriving DecidableEq, Repr

/-- The internal-error message logged by the dense-constraints Jacobian
wrappers when the handle is not a dense matrix. -/
def denseMatricesOnlyMsg : String :=
  "[internal error] hiopNlpDenseConstraints NLP works only with dense matrices"

/-- `hiopNlpDenseConstraints::eval_Jac_c(hiopMatrix&)`: downcast to
`hiopMatrixDense`; on failure log an internal error and return false,
otherwise forward to the raw dense evaluation (abstracted as `rawEval`, its
body is outside this header).  Returns the boolean result, the log messages
emitted, and the raw-evaluation calls made. -/
def hiopNlpDenseConstraints.eval_Jac_c
    (rawEval : List Double → Bool → List (List Double) → Bool)
    (x : List Double) (new_x : Bool) (Jac_c : hiopMatrix) :
    Bool × List String × List RawDenseJacCall :=
  match dynamicCastDense Jac_c with
  | none => (false, [denseMatricesOnlyMsg], [])
  | some Jac_cde =>
    (rawEval x new_x Jac_cde.local_data, [], [⟨x, new_x, Jac_cde.local_data⟩])

/-- `hiopNlpDenseConstraints::eval_Jac_d(hiopMatrix&)`: same pattern as
`eval_Jac_c`, forwarding to the raw dense inequality-Jacobian evaluation. -/
def hiopNlpDenseConstraints.eval_Jac_d
    (rawEval : List Double → Bool → List (List Double) → Bool)
    (x : List Double) (new_x : Bool) (Jac_d : hiopMatrix) :
    Bool × List String × List RawDenseJacCall :=
  match dynamicCastDense Jac_d with
  | none => (false, [denseMatricesOnlyMsg], [])
  | some Jac_dde =>
    (rawEval x new_x Jac_dde.local_data, [], [⟨x, new_x, Jac_dde.local_data⟩])

/-- Argument record of one invocation of the user's `solution_callback`
reporting hook; buffers passed as NULL are `none`. -/
structure SolutionCallbackArgs where
  status : hiopSolveStatus
  n : Int
  x : List Double
  z_L : List Double
  z_U : List Double
  m : Int
  cons : Option (List Double)
  lambda : Option (List Double)
  obj_value : Double
deriving DecidableEq, Repr

/-- Argument record of one invocation of the user's `iterate_callback`
reporting hook; buffers passed as NULL are `none`. -/
structure IterateCallbackArgs where
  iter : Int
  obj_value : Double
  n : Int
  x : List Double
  z_L : List Double
  z_U : List Double
  m : Int
  cons : Option (List Double)
  lambda : Option (List Double)
  inf_pr : Double
  inf_du : Double
  mu : Double
  alpha_du : Double
  alpha_pr : Double
  ls_trials : Int
deriving DecidableEq, Repr

/-- The base user interface's reporting hooks (`hiopInterfaceBase`). -/
structure hiopInterfaceBase where
  solution_callback : SolutionCallbackArgs → Unit
  iterate_callback : IterateCallbackArgs → Bool

/-- `hiopNlpFormulation::user_callback_solution`: after the size assertions
(`xp.get_size()==n_vars`, `c.get_size()+d.get_size()==n_cons`) the raw local
arrays of the internal `hiopVectorPar`s are handed to the user's
`solution_callback`; the combined constraint-value and multiplier arrays are
passed as NULL — their assembly from `cons_eq_mapping`/`cons_ineq_mapping` is
left as a to-do in the source.  The formulation state is returned unchanged
(the body assigns no member), making the frame effect observable. -/
def hiopNlpFormulation.user_callback_solution (I : hiopInterfaceBase)
    (s : hiopNlpFormulation) (status : hiopSolveStatus)
    (x z_L z_U c d yc yd : List Double) (obj_value : Double) :
    hiopNlpFormulation × Outcome Unit × List SolutionCallbackArgs :=
  if (x.length : Int) = s.n_vars then
    if (c.length + d.length : Int) = s.n_cons then
      let args : SolutionCallbackArgs :=
        { status := status, n := s.n_vars, x := x, z_L := z_L, z_U := z_U,
          m := s.n_cons, cons := none, lambda := none, obj_value := obj_value }
      (s, Outcome.ok (I.solution_callback args), [args])
    else (s, Outcome.assertFail "c.get_size()+d.get_size()==n_cons", [])
  else (s, Outcome.assertFail "xp.get_size()==n_vars", [])

/-- `hiopNlpFormulation::user_callback_iterate`: same pattern as
`user_callback_solution`, forwarding to the user's `iterate_callback` and
returning its boolean result; the combined constraint-value and multiplier
arrays are passed as NULL. -/
def hiopNlpFormulation.user_callback_iterate (I : hiopInterfaceBase)
    (s : hiopNlpFormulation) (iter : Int) (obj_value : Double)
    (x z_L z_U c d yc yd : List Double)
    (inf_pr inf_du mu alpha_du alpha_pr : Double) (ls_trials : Int) :
    hiopNlpFormulation × Outcome Bool × List IterateCallbackArgs :=
  if (x.length : Int) = s.n_vars then
    if (c.length + d.length : Int) = s.n_cons then
      let args : IterateCallbackArgs :=
        { iter := iter, obj_value := obj_value, n := s.n_vars, x := x,
          z_L := z_L, z_U := z_U, m := s.n_cons, cons := none, lambda := none,
          inf_pr := inf_pr, inf_du := inf_du, mu := mu, alpha_du := alpha_du,
          alpha_pr := alpha_pr, ls_trials := ls_trials }
      (s, Outcome.ok (I.iterate_callback args), [args])
    else (s, Outcome.assertFail "c.get_size()+d.get_size()==n_cons", [])
  else (s, Outcome.assertFail "xp.get_size()==n_vars", [])

/-- The transformation-chain collaborator (`hiopNlpTransformations`, defined
outside this header), abstracted by its two operations used in `user_x`:
`applyTox` maps an internal point to the user-side array, `n_post_local` is
the post-transform (user-side) local length. -/
structure hiopNlpTransformations where
  applyTox : List Double → Bool → List Double
  n_post_local : Nat

/-- C `memcpy(dest, src, count*sizeof(double))` on buffers modelled as lists:
the first `count` entries of `dest` are replaced by those of `src`. -/
def memcpyDoubles (dest src : List Double) (count : Nat) : List Double :=
  src.take count ++ dest.drop count

/-- `hiopNlpFormulation::user_x`: pass the internal point's local array
through `applyTox` with `new_x = true`, then `memcpy` exactly
`n_post_local()` doubles into the caller's buffer.  Returns the updated
buffer together with the `applyTox` calls made. -/
def hiopNlpFormulation.user_x (tr : hiopNlpTransformations)
    (hiop_x : List Double) (user_x_buf : List Double) :
    List Double × List (List Double × Bool) :=
  let hiop_xa := hiop_x
  let user_xa := tr.applyTox hiop_xa true
  (memcpyDoubles user_x_buf user_xa tr.n_post_local, [(hiop_xa, true)])

/-- Modelled from the spec: a constraint is tagged equality iff its declared
lower and upper bounds are both finite (`some`) and equal; otherwise it is an
inequality. -/
def consIsEq (l u : Option Double) : Bool :=
  match l, u with
  | some a, some b => a == b
  | _, _ => false

/-- Modelled from the spec: the equality tag of constraint `i` of the
declared constraint-bound list. -/
def consIsEqAt (consBounds : List (Option Double × Option Double)) (i : Nat) : Bool :=
  match consBounds[i]? with
  | some lu => consIsEq lu.1 lu.2
  | none => false

/-- Output of `finalizeInitialization` relevant to the constraint partition:
the equality/inequality counts and the mapping arrays of original indices. -/
structure FinalizeOut where
  n_cons_eq : Nat
  n_cons_ineq : Nat
  cons_eq_mapping : List Nat
  cons_ineq_mapping : List Nat
deriving DecidableEq, Repr

/-- Modelled from the spec: `hiopNlpFormulation::finalizeInitialization`
(only its declaration is in this header; the body is outside the sources).
Per the spec it fails (returns `none`) on inconsistent variable bounds
(`xl[i] > xu[i]` with both finite), and otherwise tags each of the `n_cons`
constraints equality or inequality by comparing its declared lower/upper
bounds, recording in `cons_eq_mapping`/`cons_ineq_mapping`, in order, the
original index each position of the internal block came from. -/
def finalizeInitialization (xl xu : List (Option Double))
    (consBounds : List (Option Double × Option Double)) : Option FinalizeOut :=
  if (List.range (min xl.length xu.length)).any (fun i =>
       match xl[i]?, xu[i]? with
       | some (some a), some (some b) => decide (b < a)
       | _, _ => false) then
    none
  else
    some { n_cons_eq :=
             ((List.range consBounds.length).filter
               (fun i => consIsEqAt consBounds i)).length,
           n_cons_ineq :=
             ((List.range consBounds.length).filter
               (fun i => ! consIsEqAt consBounds i)).length,
           cons_eq_mapping :=
             (List.range consBounds.length).filter
               (fun i => consIsEqAt consBounds i),
           cons_ineq_mapping :=
             (List.range consBounds.length).filter
               (fun i => ! consIsEqAt consBounds i) }

/-- A concrete formulation state (Scenario B of the spec: four constraints,
equalities at original indices 1 and 3) used to exercise the theorems below. -/
def sampleNlp : hiopNlpFormulation :=
  { n_vars := 3, n_cons := 4, n_cons_eq := 2, n_cons_ineq := 2,
    n_bnds_low := 2, n_bnds_upp := 1, n_ineq_low := 1, n_ineq_upp := 2,
    xl := [0, 0, 2], xu := [1, 5, 2], ixl := [1, 1, 1], ixu := [1, 0, 1],
    dl := [0, 1], du := [5, 10], idl := [1, 1], idu := [1, 1],
    c_rhs := [3, 1], cons_eq_mapping := [1, 3], cons_ineq_mapping := [0, 2] }

/-- A concrete mixed sparse-dense matrix. -/
def sampleMDS : hiopMatrixMDS :=
  { n_sp := 2, n_de := 1, sp_nnz := 3, sp_irow := [0, 1, 1],
    sp_jcol := [0, 0, 1], sp_M := [5, 6, 7], de_local_data := [[1], [2]] }

/-- A concrete symmetric block-diagonal MDS matrix. -/
def sampleSym : hiopMatrixSymBlockDiagMDS :=
  { n_sp := 2, n_de := 1, sp_nnz := 2, sp_irow := [0, 1],
    sp_jcol := [0, 1], sp_M := [4, 9], de_local_data := [[1]] }

/-- A well-behaved sample MDS interface: the Hessian callback reports back the
seeded `nnzHSS` and a zero coupling count, and fails the evaluation (returns
false). -/
def sampleIfcMDS : hiopInterfaceMDS :=
  { eval_Jac_cons := fun _ => true,
    eval_Hess_Lagr := fun a => (false, a.nnzHSS, 0) }

/-- A sample MDS interface whose Hessian callback misbehaves: it reports one
nonzero in the (unsupported) sparse-dense coupling block. -/
def sampleIfcMDSBadHess : hiopInterfaceMDS :=
  { eval_Jac_cons := fun _ => true,
    eval_Hess_Lagr := fun a => (true, a.nnzHSS, 1) }

/-- A sample base interface whose reporting hooks do nothing. -/
def sampleIfcBase : hiopInterfaceBase :=
  { solution_callback := fun _ => (),
    iterate_callback := fun _ => true }

/-- A `cassert` that ran through to a normal return did not fail: its
continuation produced that return value. -/
theorem cassert_ok_eq {α : Type} {b : Bool} {msg : String} {k : Outcome α}
    {a : α} (h : cassert b msg k = Outcome.ok a) : k = Outcome.ok a := by
  unfold cassert at h
  split at h
  · exact h
  · exact absurd h (by simp)

/-- C9: for every formulation state, the accessor `n_complem()` returns
exactly the sum of the inequality-lower, inequality-upper, variable-lower and
variable-upper bound counts. -/
theorem n_complem_eq_sum_of_bound_counts (s : hiopNlpFormulation) :
    s.n_complem = s.n_ineq_low + s.n_ineq_upp + s.n_bnds_low + s.n_bnds_upp := rfl

/-- C4: every call to the dense-constraints specialization's `eval_Hess_Lagr`
is an assertion failure (quasi-Newton-only formulation); in particular it never
returns a boolean value, so it is not surfaced as a recoverable `false`. -/
theorem denseConstraints_eval_Hess_Lagr_always_asserts (x : List Double)
    (new_x : Bool) (obj_factor : Double) (lambda : List Double)
    (new_lambda : Bool) (Hess_L : hiopMatrix) :
    hiopNlpDenseConstraints.eval_Hess_Lagr x new_x obj_factor lambda new_lambda Hess_L
        = Outcome.assertFail "this NLP formulation is only for Quasi-Newton"
      ∧ ∀ b : Bool,
        hiopNlpDenseConstraints.eval_Hess_Lagr x new_x obj_factor lambda new_lambda Hess_L
          ≠ Outcome.ok b := by
  refine ⟨rfl, ?_⟩
  intro b h
  simp [hiopNlpDenseConstraints.eval_Hess_Lagr, cassert] at h

/-- C1: whenever the MDS `eval_Jac_c` (resp. `eval_Jac_d`) matrix handle
downcasts successfully to `hiopMatrixMDS`, the user's combined sparse+dense
Jacobian callback is invoked exactly once, receiving the equality (resp.
inequality) constraint count together with `cons_eq_mapping` (resp.
`cons_ineq_mapping`), the sparse and dense dimension counts, the current
sparse nonzero count, the raw coordinate index and value buffers, and the
dense block's buffer. -/
theorem mds_eval_Jac_invokes_callback_once (I : hiopInterfaceMDS)
    (s : hiopNlpFormulation) (x : List Double) (new_x : Bool)
    (Jc Jd : hiopMatrix) (mc md : hiopMatrixMDS)
    (hc : dynamicCastMDS Jc = some mc) (hd : dynamicCastMDS Jd = some md) :
    (hiopNlpMDS.eval_Jac_c I s x new_x Jc).2 =
      [{ n_vars := s.n_vars, n_cons := s.n_cons,
         num_cons := s.n_cons_eq, idx_cons := s.cons_eq_mapping,
         x := x, new_x := new_x, nsparse := mc.n_sp, ndense := mc.n_de,
         nnzJacS := mc.sp_nnz, iJacS := mc.sp_irow, jJacS := mc.sp_jcol,
         MJacS := mc.sp_M, JacD := mc.de_local_data }]
  ∧ (hiopNlpMDS.eval_Jac_d I s x new_x Jd).2 =
      [{ n_vars := s.n_vars, n_cons := s.n_cons,
         num_cons := s.n_cons_ineq, idx_cons := s.cons_ineq_mapping,
         x := x, new_x := new_x, nsparse := md.n_sp, ndense := md.n_de,
         nnzJacS := md.sp_nnz, iJacS := md.sp_irow, jJacS := md.sp_jcol,
         MJacS := md.sp_M, JacD := md.de_local_data }] := by
  constructor
  · simp [hiopNlpMDS.eval_Jac_c, hc, mdsJacArgs]
  · simp [hiopNlpMDS.eval_Jac_d, hd, mdsJacArgs]

/-- Witness for C1 at a concrete interface, state, point and MDS matrix. -/
theorem mds_eval_Jac_invokes_callback_once_witness :
    (hiopNlpMDS.eval_Jac_c sampleIfcMDS sampleNlp [9, 8, 7] true
        (hiopMatrix.mds sampleMDS)).2 =
      [{ n_vars := sampleNlp.n_vars, n_cons := sampleNlp.n_cons,
         num_cons := sampleNlp.n_cons_eq, idx_cons := sampleNlp.cons_eq_mapping,
         x := [9, 8, 7], new_x := true, nsparse := sampleMDS.n_sp,
         ndense := sampleMDS.n_de, nnzJacS := sampleMDS.sp_nnz,
         iJacS := sampleMDS.sp_irow, jJacS := sampleMDS.sp_jcol,
         MJacS := sampleMDS.sp_M, JacD := sampleMDS.de_local_data }]
  ∧ (hiopNlpMDS.eval_Jac_d sampleIfcMDS sampleNlp [9, 8, 7] true
        (hiopMatrix.mds sampleMDS)).2 =
      [{ n_vars := sampleNlp.n_vars, n_cons := sampleNlp.n_cons,
         num_cons := sampleNlp.n_cons_ineq, idx_cons := sampleNlp.cons_ineq_mapping,
         x := [9, 8, 7], new_x := true, nsparse := sampleMDS.n_sp,
         ndense := sampleMDS.n_de, nnzJacS := sampleMDS.sp_nnz,
         iJacS := sampleMDS.sp_irow, jJacS := sampleMDS.sp_jcol,
         MJacS := sampleMDS.sp_M, JacD := sampleMDS.de_local_data }] :=
  mds_eval_Jac_invokes_callback_once sampleIfcMDS sampleNlp [9, 8, 7] true
    (hiopMatrix.mds sampleMDS) (hiopMatrix.mds sampleMDS)
    sampleMDS sampleMDS rfl rfl

/-- C2: for the dense-constraints specialization, `eval_Jac_c` and
`eval_Jac_d` with a handle that is not a dense matrix log the internal-error
message and return false without forwarding to the raw dense evaluation; with
a dense handle they forward to the raw evaluation on its local data. -/
theorem denseConstraints_eval_Jac_requires_dense
    (rawC rawD : List Double → Bool → List (List Double) → Bool)
    (x : List Double) (new_x : Bool) :
    (∀ J : hiopMatrix, dynamicCastDense J = none →
        hiopNlpDenseConstraints.eval_Jac_c rawC x new_x J
          = (false, [denseMatricesOnlyMsg], [])
      ∧ hiopNlpDenseConstraints.eval_Jac_d rawD x new_x J
          = (false, [denseMatricesOnlyMsg], []))
  ∧ (∀ m : hiopMatrixDense,
        hiopNlpDenseConstraints.eval_Jac_c rawC x new_x (hiopMatrix.dense m)
          = (rawC x new_x m.local_data, [], [⟨x, new_x, m.local_data⟩])
      ∧ hiopNlpDenseConstraints.eval_Jac_d rawD x new_x (hiopMatrix.dense m)
          = (rawD x new_x m.local_data, [], [⟨x, new_x, m.local_data⟩])) := by
  constructor
  · intro J h
    constructor
    · simp [hiopNlpDenseConstraints.eval_Jac_c, h]
    · simp [hiopNlpDenseConstraints.eval_Jac_d, h]
  · intro m
    constructor
    · simp [hiopNlpDenseConstraints.eval_Jac_c, dynamicCastDense]
    · simp [hiopNlpDenseConstraints.eval_Jac_d, dynamicCastDense]

/-- Witness for C2: a sparse(MDS)-typed handle given to the dense-constraints
Jacobian wrappers yields false, the logged internal error, and no forward. -/
theorem denseConstraints_eval_Jac_requires_dense_witness :
    hiopNlpDenseConstraints.eval_Jac_c (fun _ _ _ => true) [1, 2, 3] false
        (hiopMatrix.mds sampleMDS)
      = (false, [denseMatricesOnlyMsg], [])
  ∧ hiopNlpDenseConstraints.eval_Jac_d (fun _ _ _ => true) [1, 2, 3] false
        (hiopMatrix.mds sampleMDS)
      = (false, [denseMatricesOnlyMsg], []) :=
  (denseConstraints_eval_Jac_requires_dense (fun _ _ _ => true)
      (fun _ _ _ => true) [1, 2, 3] false).1 (hiopMatrix.mds sampleMDS) rfl

/-- C3: if the user's Hessian callback reports a nonzero count in the
sparse-dense coupling block, MDS `eval_Hess_Lagr` fails the
`assert(nnzHSD==0)`: the outcome is that assertion failure, not a normal
return, so the entry is never silently dropped. -/
theorem mds_eval_Hess_Lagr_asserts_on_coupling_nnz (I : hiopInterfaceMDS)
    (s : hiopNlpFormulation) (x : List Double) (new_x : Bool)
    (obj_factor : Double) (lambda : List Double) (new_lambda : Bool)
    (p : hiopMatrixSymBlockDiagMDS)
    (h : (I.eval_Hess_Lagr
        (mdsHessArgs s x new_x obj_factor lambda new_lambda p)).2.2 ≠ 0) :
    (hiopNlpMDS.eval_Hess_Lagr I s x new_x obj_factor lambda new_lambda
        (hiopMatrix.symBlockDiagMDS p)).1 = Outcome.assertFail "nnzHSD==0" := by
  have hb : ((I.eval_Hess_Lagr
      (mdsHessArgs s x new_x obj_factor lambda new_lambda p)).2.2 == 0) = false := by
    simpa using h
  simp [hiopNlpMDS.eval_Hess_Lagr, dynamicCastSymBlockDiagMDS, cassert, hb]

/-- Witness for C3: a concrete callback reporting one coupling-block nonzero
makes `eval_Hess_Lagr` fail the `nnzHSD==0` assertion. -/
theorem mds_eval_Hess_Lagr_asserts_on_coupling_nnz_witness :
    (sampleIfcMDSBadHess.eval_Hess_Lagr
        (mdsHessArgs sampleNlp [1, 2, 3] true 1 [0, 0, 0, 0] false sampleSym)).2.2 ≠ 0
  ∧ (hiopNlpMDS.eval_Hess_Lagr sampleIfcMDSBadHess sampleNlp [1, 2, 3] true 1
        [0, 0, 0, 0] false (hiopMatrix.symBlockDiagMDS sampleSym)).1
      = Outcome.assertFail "nnzHSD==0" :=
  ⟨by decide,
   mds_eval_Hess_Lagr_asserts_on_coupling_nnz sampleIfcMDSBadHess sampleNlp
     [1, 2, 3] true 1 [0, 0, 0, 0] false sampleSym (by decide)⟩

/-- C6: when the matrix handle downcast succeeds, the MDS `eval_Jac_c` and
`eval_Jac_d` return exactly the boolean result of the user's Jacobian
callback, and whenever `eval_Hess_Lagr` returns normally its boolean value is
exactly the one the user's Hessian callback returned; failure is a plain
`false`, never an exception. -/
theorem mds_eval_returns_callback_bool (I : hiopInterfaceMDS)
    (s : hiopNlpFormulation) (x : List Double) (new_x : Bool)
    (obj_factor : Double) (lambda : List Double) (new_lambda : Bool)
    (Jc Jd H : hiopMatrix) (mc md : hiopMatrixMDS)
    (p : hiopMatrixSymBlockDiagMDS)
    (hc : dynamicCastMDS Jc = some mc) (hd : dynamicCastMDS Jd = some md)
    (hp : dynamicCastSymBlockDiagMDS H = some p) :
    (hiopNlpMDS.eval_Jac_c I s x new_x Jc).1
        = Outcome.ok (I.eval_Jac_cons
            (mdsJacArgs s s.n_cons_eq s.cons_eq_mapping x new_x mc))
  ∧ (hiopNlpMDS.eval_Jac_d I s x new_x Jd).1
        = Outcome.ok (I.eval_Jac_cons
            (mdsJacArgs s s.n_cons_ineq s.cons_ineq_mapping x new_x md))
  ∧ ∀ b : Bool,
      (hiopNlpMDS.eval_Hess_Lagr I s x new_x obj_factor lambda new_lambda H).1
          = Outcome.ok b →
      b = (I.eval_Hess_Lagr
            (mdsHessArgs s x new_x obj_factor lambda new_lambda p)).1 := by
  refine ⟨by simp [hiopNlpMDS.eval_Jac_c, hc], by simp [hiopNlpMDS.eval_Jac_d, hd], ?_⟩
  intro b hb
  unfold hiopNlpMDS.eval_Hess_Lagr at hb
  rw [hp] at hb
  dsimp only at hb
  exact (Outcome.ok.inj (cassert_ok_eq (cassert_ok_eq hb))).symm

/-- Witness for C6 at a concrete interface whose Hessian callback fails the
evaluation (returns false) while reporting consistent nonzero counts. -/
theorem mds_eval_returns_callback_bool_witness :
    (hiopNlpMDS.eval_Jac_c sampleIfcMDS sampleNlp [4, 5, 6] false
        (hiopMatrix.mds sampleMDS)).1
      = Outcome.ok (sampleIfcMDS.eval_Jac_cons
          (mdsJacArgs sampleNlp sampleNlp.n_cons_eq sampleNlp.cons_eq_mapping
            [4, 5, 6] false sampleMDS))
  ∧ false = (sampleIfcMDS.eval_Hess_Lagr
        (mdsHessArgs sampleNlp [4, 5, 6] false 1 [0, 0, 0, 0] false sampleSym)).1 :=
  ⟨(mds_eval_returns_callback_bool sampleIfcMDS sampleNlp [4, 5, 6] false 1
      [0, 0, 0, 0] false (hiopMatrix.mds sampleMDS) (hiopMatrix.mds sampleMDS)
      (hiopMatrix.symBlockDiagMDS sampleSym) sampleMDS sampleMDS sampleSym
      rfl rfl rfl).1,
   (mds_eval_returns_callback_bool sampleIfcMDS sampleNlp [4, 5, 6] false 1
      [0, 0, 0, 0] false (hiopMatrix.mds sampleMDS) (hiopMatrix.mds sampleMDS)
      (hiopMatrix.symBlockDiagMDS sampleSym) sampleMDS sampleMDS sampleSym
      rfl rfl rfl).2.2 false (by decide)⟩

/-- Filtering a list by a predicate and by its negation splits its length. -/
theorem length_filter_add_length_filter_not {α : Type} (l : List α) (p : α → Bool) :
    (l.filter p).length + (l.filter (fun a => ! p a)).length = l.length := by
  induction l with
  | nil => rfl
  | cons a t ih =>
    by_cases h : p a = true <;>
      simp only [List.filter_cons, h, Bool.not_true, Bool.not_false,
        if_true, if_false, List.length_cons, Bool.false_eq_true,
        Bool.true_eq_false, ite_true, ite_false] <;> omega

/-- C5: after `finalizeInitialization` succeeds, `cons_eq_mapping` has length
`n_cons_eq`, `cons_ineq_mapping` has length `n_cons_ineq`, the two counts sum
to `n_cons`, and the concatenated mapping arrays contain every original
constraint index below `n_cons` exactly once and no other entry. -/
theorem finalize_mappings_partition (xl xu : List (Option Double))
    (consBounds : List (Option Double × Option Double)) (r : FinalizeOut)
    (h : finalizeInitialization xl xu consBounds = some r) :
    r.cons_eq_mapping.length = r.n_cons_eq
  ∧ r.cons_ineq_mapping.length = r.n_cons_ineq
  ∧ r.n_cons_eq + r.n_cons_ineq = consBounds.length
  ∧ ∀ j : Nat, (r.cons_eq_mapping ++ r.cons_ineq_mapping).count j
      = if j < consBounds.length then 1 else 0 := by
  unfold finalizeInitialization at h
  split at h
  · exact absurd h (by simp)
  · injection h with h
    subst h
    refine ⟨rfl, rfl, ?_, ?_⟩
    · exact length_filter_add_length_filter_not (List.range consBounds.length) _
        |>.trans (List.length_range _)
    · intro j
      rw [List.count_append]
      by_cases hj : j < consBounds.length
      · rw [if_pos hj]
        by_cases hp : consIsEqAt consBounds j = true
        · rw [List.count_eq_one_of_mem
              ((List.nodup_range _).filter _)
              (List.mem_filter.mpr ⟨List.mem_range.mpr hj, hp⟩),
            List.count_eq_zero_of_not_mem (fun hm => by
              rcases List.mem_filter.mp hm with ⟨-, hb⟩
              rw [hp] at hb
              exact absurd hb (by simp))]
        · rw [List.count_eq_zero_of_not_mem (fun hm => by
              rcases List.mem_filter.mp hm with ⟨-, hb⟩
              exact hp hb),
            List.count_eq_one_of_mem
              ((List.nodup_range _).filter _)
              (List.mem_filter.mpr ⟨List.mem_range.mpr hj, by
                simp only [Bool.not_eq_true] at hp
                simp [hp]⟩)]
      · rw [if_neg hj]
        rw [List.count_eq_zero_of_not_mem (fun hm =>
            hj (List.mem_range.mp (List.mem_filter.mp hm).1)),
          List.count_eq_zero_of_not_mem (fun hm =>
            hj (List.mem_range.mp (List.mem_filter.mp hm).1))]

/-- Witness for C5 on Scenario B of the spec: constraint bounds
`(-inf,5],[3,3],[0,10],[1,1]` classify into `cons_eq_mapping = [1,3]` and
`cons_ineq_mapping = [0,2]`; index 2 appears exactly once and 4 not at all. -/
theorem finalize_mappings_partition_witness :
    finalizeInitialization [some 0] [some 1]
        [(none, some 5), (some 3, some 3), (some 0, some 10), (some 1, some 1)]
      = some ⟨2, 2, [1, 3], [0, 2]⟩
  ∧ (([1, 3] ++ [0, 2] : List Nat).count 2 = 1)
  ∧ (([1, 3] ++ [0, 2] : List Nat).count 4 = 0) :=
  ⟨by decide,
   ((finalize_mappings_partition [some 0] [some 1]
       [(none, some 5), (some 3, some 3), (some 0, some 10), (some 1, some 1)]
       ⟨2, 2, [1, 3], [0, 2]⟩ (by decide)).2.2.2 2).trans (by decide),
   ((finalize_mappings_partition [some 0] [some 1]
       [(none, some 5), (some 3, some 3), (some 0, some 10), (some 1, some 1)]
       ⟨2, 2, [1, 3], [0, 2]⟩ (by decide)).2.2.2 4).trans (by decide)⟩

/-- C7 counterexample: at a concrete call with nonempty constraint blocks,
`user_callback_solution` hands the user's hook NULL (`none`) in place of both
the assembled constraint values and the assembled constraint multipliers, so
the hook does not receive those assembled vectors as the claim states. -/
theorem user_callback_solution_passes_null_cons :
    ((hiopNlpFormulation.user_callback_solution sampleIfcBase sampleNlp 0
        [1, 2, 3] [0, 0, 0] [0, 0, 0] [3, 1] [0, 2] [7, 7] [8, 8] 5).2.2.map
      (fun a => (a.cons, a.lambda))) = [(none, none)] := by decide

/-- C7 (amended): every `user_callback_solution` and `user_callback_iterate`
call that passes the size assertions invokes the user's reporting hook exactly
once with the variable count, the primal point's raw array, the lower- and
upper-bound multiplier arrays, the constraint count and the objective value,
but passes NULL in place of the assembled constraint values and constraint
multipliers (their assembly is left as future work in the source); iterate
additionally returns the hook's boolean result. -/
theorem user_callbacks_invoke_hook_once (I : hiopInterfaceBase)
    (s : hiopNlpFormulation) (status : hiopSolveStatus) (iter : Int)
    (x z_L z_U c d yc yd : List Double) (obj_value : Double)
    (inf_pr inf_du mu alpha_du alpha_pr : Double) (ls_trials : Int)
    (h1 : (x.length : Int) = s.n_vars)
    (h2 : (c.length + d.length : Int) = s.n_cons) :
    (hiopNlpFormulation.user_callback_solution I s status x z_L z_U c d yc yd
        obj_value).2.2
      = [{ status := status, n := s.n_vars, x := x, z_L := z_L, z_U := z_U,
           m := s.n_cons, cons := none, lambda := none, obj_value := obj_value }]
  ∧ (hiopNlpFormulation.user_callback_iterate I s iter obj_value x z_L z_U c d
        yc yd inf_pr inf_du mu alpha_du alpha_pr ls_trials).2.2
      = [{ iter := iter, obj_value := obj_value, n := s.n_vars, x := x,
           z_L := z_L, z_U := z_U, m := s.n_cons, cons := none, lambda := none,
           inf_pr := inf_pr, inf_du := inf_du, mu := mu, alpha_du := alpha_du,
           alpha_pr := alpha_pr, ls_trials := ls_trials }]
  ∧ (hiopNlpFormulation.user_callback_iterate I s iter obj_value x z_L z_U c d
        yc yd inf_pr inf_du mu alpha_du alpha_pr ls_trials).2.1
      = Outcome.ok (I.iterate_callback
          { iter := iter, obj_value := obj_value, n := s.n_vars, x := x,
            z_L := z_L, z_U := z_U, m := s.n_cons, cons := none, lambda := none,
            inf_pr := inf_pr, inf_du := inf_du, mu := mu, alpha_du := alpha_du,
            alpha_pr := alpha_pr, ls_trials := ls_trials }) := by
  refine ⟨?_, ?_, ?_⟩ <;>
    simp [hiopNlpFormulation.user_callback_solution,
      hiopNlpFormulation.user_callback_iterate, h1, h2]

/-- Witness for the amended C7 at a concrete state and point. -/
theorem user_callbacks_invoke_hook_once_witness :
    (hiopNlpFormulation.user_callback_solution sampleIfcBase sampleNlp 0
        [1, 2, 3] [0, 0, 0] [0, 0, 0] [3, 1] [0, 2] [7, 7] [8, 8] 5).2.2
      = [{ status := 0, n := sampleNlp.n_vars, x := [1, 2, 3],
           z_L := [0, 0, 0], z_U := [0, 0, 0], m := sampleNlp.n_cons,
           cons := none, lambda := none, obj_value := 5 }]
  ∧ (hiopNlpFormulation.user_callback_iterate sampleIfcBase sampleNlp 3 5
        [1, 2, 3] [0, 0, 0] [0, 0, 0] [3, 1] [0, 2] [7, 7] [8, 8]
        1 1 1 1 1 2).2.2
      = [{ iter := 3, obj_value := 5, n := sampleNlp.n_vars, x := [1, 2, 3],
           z_L := [0, 0, 0], z_U := [0, 0, 0], m := sampleNlp.n_cons,
           cons := none, lambda := none, inf_pr := 1, inf_du := 1, mu := 1,
           alpha_du := 1, alpha_pr := 1, ls_trials := 2 }]
  ∧ (hiopNlpFormulation.user_callback_iterate sampleIfcBase sampleNlp 3 5
        [1, 2, 3] [0, 0, 0] [0, 0, 0] [3, 1] [0, 2] [7, 7] [8, 8]
        1 1 1 1 1 2).2.1
      = Outcome.ok (sampleIfcBase.iterate_callback
          { iter := 3, obj_value := 5, n := sampleNlp.n_vars, x := [1, 2, 3],
            z_L := [0, 0, 0], z_U := [0, 0, 0], m := sampleNlp.n_cons,
            cons := none, lambda := none, inf_pr := 1, inf_du := 1, mu := 1,
            alpha_du := 1, alpha_pr := 1, ls_trials := 2 }) :=
  user_callbacks_invoke_hook_once sampleIfcBase sampleNlp 0 3
    [1, 2, 3] [0, 0, 0] [0, 0, 0] [3, 1] [0, 2] [7, 7] [8, 8] 5
    1 1 1 1 1 2 (by decide) (by decide)

/-- C8: neither `user_callback_solution` nor `user_callback_iterate` mutates
any solver-owned state of the formulation (dimensions, bound vectors,
indicator vectors, right-hand side, mapping arrays): the state after the call
equals the state before it, on every control path. -/
theorem user_callbacks_preserve_state (I : hiopInterfaceBase)
    (s : hiopNlpFormulation) (status : hiopSolveStatus) (iter : Int)
    (x z_L z_U c d yc yd : List Double) (obj_value : Double)
    (inf_pr inf_du mu alpha_du alpha_pr : Double) (ls_trials : Int) :
    (hiopNlpFormulation.user_callback_solution I s status x z_L z_U c d yc yd
        obj_value).1 = s
  ∧ (hiopNlpFormulation.user_callback_iterate I s iter obj_value x z_L z_U c d
        yc yd inf_pr inf_du mu alpha_du alpha_pr ls_trials).1 = s := by
  constructor
  · unfold hiopNlpFormulation.user_callback_solution
    split_ifs <;> rfl
  · unfold hiopNlpFormulation.user_callback_iterate
    split_ifs <;> rfl

/-- C10: `user_x` first passes the internal point through `applyTox` with
`new_x = true` (exactly one such call) and then copies exactly
`n_post_local()` doubles — the post-transform user-side length — into the
caller's buffer: entries below `n_post_local()` come from the transformed
array, entries beyond it keep the caller's previous values, and the buffer
length is unchanged. -/
theorem user_x_copies_n_post_local (tr : hiopNlpTransformations)
    (hiop_x buf : List Double)
    (h1 : tr.n_post_local ≤ (tr.applyTox hiop_x true).length)
    (h2 : tr.n_post_local ≤ buf.length) :
    (hiopNlpFormulation.user_x tr hiop_x buf).2 = [(hiop_x, true)]
  ∧ (hiopNlpFormulation.user_x tr hiop_x buf).1.length = buf.length
  ∧ (∀ i : Nat, i < tr.n_post_local →
      (hiopNlpFormulation.user_x tr hiop_x buf).1[i]?
        = (tr.applyTox hiop_x true)[i]?)
  ∧ (∀ i : Nat, tr.n_post_local ≤ i →
      (hiopNlpFormulation.user_x tr hiop_x buf).1[i]? = buf[i]?) := by
  refine ⟨rfl, ?_, ?_, ?_⟩
  · show (memcpyDoubles buf (tr.applyTox hiop_x true) tr.n_post_local).length
        = buf.length
    simp only [memcpyDoubles, List.length_append, List.length_take,
      List.length_drop]
    omega
  · intro i hi
    show (memcpyDoubles buf (tr.applyTox hiop_x true) tr.n_post_local)[i]? = _
    unfold memcpyDoubles
    rw [List.getElem?_append_left (by
        rw [List.length_take]
        omega),
      List.getElem?_take_of_lt hi]
  · intro i hi
    show (memcpyDoubles buf (tr.applyTox hiop_x true) tr.n_post_local)[i]? = _
    unfold memcpyDoubles
    rw [List.getElem?_append_right (by
        rw [List.length_take]
        omega),
      List.getElem?_drop, List.length_take]
    congr 1
    omega

/-- Witness for C10: with a transform lengthening the point and
`n_post_local = 2`, exactly two entries of the 3-entry caller buffer are
overwritten and the third keeps its previous value. -/
theorem user_x_copies_n_post_local_witness :
    (hiopNlpFormulation.user_x ⟨fun xs _ => xs ++ [5], 2⟩ [1, 2, 3] [9, 9, 9]).2
      = [([1, 2, 3], true)]
  ∧ (hiopNlpFormulation.user_x ⟨fun xs _ => xs ++ [5], 2⟩ [1, 2, 3] [9, 9, 9]).1[1]?
      = some 2
  ∧ (hiopNlpFormulation.user_x ⟨fun xs _ => xs ++ [5], 2⟩ [1, 2, 3] [9, 9, 9]).1[2]?
      = some 9 :=
  ⟨(user_x_copies_n_post_local ⟨fun xs _ => xs ++ [5], 2⟩ [1, 2, 3] [9, 9, 9]
      (by decide) (by decide)).1,
   ((user_x_copies_n_post_local ⟨fun xs _ => xs ++ [5], 2⟩ [1, 2, 3] [9, 9, 9]
      (by decide) (by decide)).2.2.1 1 (by decide)).trans (by decide),
   ((user_x_copies_n_post_local ⟨fun xs _ => xs ++ [5], 2⟩ [1, 2, 3] [9, 9, 9]
      (by decide) (by decide)).2.2.2 2 (by decide)).trans (by decide)⟩
